import Mathlib

/-!
Verification of the umeq-csi agent and CSI endpoint parser.

This file gives a shallow embedding of the agent program (the HTTP service
that creates qcow2-backed volumes, publishes them to QEMU virtual machines
through a monitor-command wrapper, and allocates volume serial numbers from
an etcd store) and of the endpoint parser in pkg/umeq/server.go, and proves
properties of the publish/unpublish orchestration, the serial allocator
NextID, the device-path resolver, and the Parse function.

Modelling conventions:
- the etcd store is a key-value map String to Option String; Get never
  fails (store reachability is out of scope, the handlers panic on a store
  error and no claim concerns that path);
- the QEMU monitor wrapper (wrapper.Exec) is an environment mapping a
  (node, command) pair to none on success or some message on failure,
  mirroring the Go error value;
- each handler is a pure function returning the list of observable events
  it performed (wrapper commands, etcd operations, log lines) together
  with the resulting store and its outcome (HTTP error response, success,
  body content, or a runtime panic);
- the in-process mutex m (part_000:202) serializes NextID calls within one
  agent process, so a single process is modelled by sequential composition
  of NextID calls; distinct processes share etcd but not the mutex, so a
  cross-process schedule may interleave the read and write phases of two
  NextID calls.
-/

namespace UmeqCsi

/-- Model of the etcd key-value store seen through clientv3 Get/Put. -/
def Etcd : Type := String → Option String

/-- Store with no keys present. -/
def emptyEtcd : Etcd := fun _ => none

/-- Unconditional etcd Put: overwrite the key with the value.  The Go code
only ever uses the unconditional clientv3 Put, never a transaction. -/
def Etcd.put (st : Etcd) (k v : String) : Etcd :=
  fun q => if q = k then some v else st q

/-- Observable events performed by a handler: a wrapper.Exec monitor
command sent to a node, an etcd Get or Put, or a log line. -/
inductive Event where
  | exec (node cmd : String)
  | etcdGet (key : String)
  | etcdPut (key value : String)
  | logln (msg : String)
  deriving DecidableEq

/-- Result of the QEMU monitor wrapper for each (node, command) pair:
none models a nil error from wrapper.Exec, some msg a non-nil error whose
Error() text is msg. -/
def Env : Type := String → String → Option String

/-- Outcome of a handler: fall-through success, an HTTP error response
with status code and JSON message, a written response body, or a runtime
panic (log.Panicln or a nil-pointer dereference). -/
inductive Outcome where
  | ok
  | errResp (code : Nat) (msg : String)
  | content (body : String)
  | panicked (msg : String)
  deriving DecidableEq

/-- Message of the Go runtime panic raised by calling Error() on a nil
error value. -/
def nilDerefMsg : String :=
  "runtime error: invalid memory address or nil pointer dereference"

/-! ### Decimal conversion: embedding of strconv.Atoi and fmt.Sprintf %d -/

/-- Decimal digit character: Go prints digit d as the character with code
48 + d (48 is the code of the character 0). -/
def digChar (d : Nat) : Char := Char.ofNat (48 + d)

/-- Big-endian decimal digit characters of a natural number, the digits
produced by the %d verb of fmt.Sprintf. -/
def natDigits (n : Nat) : List Char :=
  if _ : n < 10 then [digChar n]
  else natDigits (n / 10) ++ [digChar (n % 10)]
decreasing_by exact Nat.div_lt_self (by omega) (by omega)

/-- Embedding of fmt.Sprintf with the %d verb on a Go int (part_000:218):
the decimal representation, with a leading minus sign when negative. -/
def itoa (v : Int) : String :=
  if v < 0 then ⟨'-' :: natDigits (-v).toNat⟩ else ⟨natDigits v.toNat⟩

/-- Decimal digit test, character between 0 and 9 inclusive. -/
def isDigitCh (c : Char) : Bool := decide ('0' ≤ c) && decide (c ≤ '9')

/-- Accumulating decimal value of a digit character list, as scanned left
to right by strconv. -/
def digitsValFrom (a : Nat) (l : List Char) : Nat :=
  l.foldl (fun x c => x * 10 + (c.toNat - 48)) a

/-- Parse an unsigned decimal digit string; none on any syntax error
(empty input or a non-digit character). -/
def parseNat (l : List Char) : Option Nat :=
  if l ≠ [] ∧ l.all isDigitCh = true then some (digitsValFrom 0 l) else none

/-- Embedding of strconv.Atoi as used at part_000:216: an optional sign
followed by decimal digits; the Go caller discards the error, so on any
syntax error Atoi contributes the value 0, and on an out-of-range value
ParseInt returns the nearest 64-bit int bound together with ErrRange
(9223372036854775807 is maxInt64, -9223372036854775808 is minInt64), so
such strings contribute the clamped bound. -/
def atoi (s : String) : Int :=
  if s.data.head? = some '-' then
    match parseNat s.data.tail with
    | some v =>
        if (v : Int) > 9223372036854775808 then -9223372036854775808
        else -(v : Int)
    | none => 0
  else if s.data.head? = some '+' then
    match parseNat s.data.tail with
    | some v =>
        if (v : Int) > 9223372036854775807 then 9223372036854775807
        else (v : Int)
    | none => 0
  else
    match parseNat s.data with
    | some v =>
        if (v : Int) > 9223372036854775807 then 9223372036854775807
        else (v : Int)
    | none => 0

/-- Wrap of a 64-bit two-complement Go int: the result lies in the
interval from -2^63 = -9223372036854775808 inclusive to 2^63 exclusive
and is congruent to v modulo 2^64 = 18446744073709551616.  The int
addition value += 1 at part_000:217 wraps at this width. -/
def wrap64 (v : Int) : Int :=
  (v + 9223372036854775808) % 18446744073709551616 - 9223372036854775808

/-! ### The serial allocator NextID (part_000:204-222) -/

/-- Key of the global serial counter (part_000:209). -/
def idKey : String := "/xiaomakai/id"

/-- Etcd key of the binding of a volume name to its serial
(part_000:125,131,174): the string /xiaomakai/ followed by the name. -/
def bindingKey (name : String) : String := "/xiaomakai/" ++ name

/-- Read phase of NextID (part_000:209): the etcd Get of the counter key.
Performed under the in-process mutex, which does not exclude other
processes. -/
def NextID_read (st : Etcd) : Option String := st idKey

/-- Write phase of NextID (part_000:213-221), applied to the value r seen
by the read phase: when the counter key was absent, Put the literal 1 and
return the literal 0; otherwise Put the parsed value plus one (a Go int
addition, wrapping at 64 bits) and return the string that was read.  The
Put is unconditional: it is not guarded on the stored value still being
equal to r.  Returns the Put event, the new store, and the returned
serial. -/
def NextID_write (st : Etcd) (r : Option String) : List Event × Etcd × String :=
  match r with
  | none => ([Event.etcdPut idKey "1"], st.put idKey "1", "0")
  | some v =>
      ([Event.etcdPut idKey (itoa (wrap64 (atoi v + 1)))],
       st.put idKey (itoa (wrap64 (atoi v + 1))), v)

/-- NextID (part_000:204-222) as a single uninterrupted call: read phase
followed by write phase.  Within one agent process the mutex m guarantees
this atomicity; across processes it does not. -/
def NextID (st : Etcd) : List Event × Etcd × String :=
  let r := NextID_read st
  let (evs, st2, s) := NextID_write st r
  (Event.etcdGet idKey :: evs, st2, s)

/-- Cross-process schedule of two NextID calls, one per agent process A
and B sharing the etcd store: A reads, B reads, A writes, B writes.  The
in-process mutex of each process does not order the two calls, and no
etcd operation of NextID is conditional, so this interleaving is
reachable.  Returns the final store and the two returned serials. -/
def NextID_race (st : Etcd) : Etcd × String × String :=
  let rA := NextID_read st
  let rB := NextID_read st
  let (_, stA, sA) := NextID_write st rA
  let (_, stB, sB) := NextID_write stA rB
  (stB, sA, sB)

/-- Serials returned by n successive NextID calls serialized through one
agent process (the mutex m forbids interleaving within the process). -/
def runNextID : Nat → Etcd → List String
  | 0, _ => []
  | n + 1, st =>
      let (_, st2, s) := NextID st
      s :: runNextID n st2

/-! ### Round-trip facts about the decimal conversion -/

theorem digChar_isDigit (d : Nat) (h : d < 10) : isDigitCh (digChar d) = true := by
  interval_cases d <;> decide

theorem digChar_toNat (d : Nat) (h : d < 10) : (digChar d).toNat = 48 + d := by
  interval_cases d <;> decide

theorem natDigits_ne_nil (n : Nat) : natDigits n ≠ [] := by
  rw [natDigits]
  split <;> simp

theorem natDigits_all_digits (n : Nat) : (natDigits n).all isDigitCh = true := by
  induction n using Nat.strong_induction_on with
  | _ n ih =>
    rw [natDigits]
    split
    · next h => simp [digChar_isDigit n h]
    · next h =>
      rw [List.all_append, Bool.and_eq_true]
      exact ⟨ih (n / 10) (Nat.div_lt_self (by omega) (by omega)),
        by simp [digChar_isDigit (n % 10) (Nat.mod_lt _ (by omega))]⟩

theorem digitsValFrom_natDigits (n : Nat) :
    ∀ a : Nat, digitsValFrom a (natDigits n) = a * 10 ^ (natDigits n).length + n := by
  induction n using Nat.strong_induction_on with
  | _ n ih =>
    intro a
    rw [natDigits]
    split
    · next h =>
      simp [digitsValFrom, digChar_toNat n h]
    · next h =>
      have hd : n / 10 < n := Nat.div_lt_self (by omega) (by omega)
      have hsplit : digitsValFrom a (natDigits (n / 10) ++ [digChar (n % 10)])
          = digitsValFrom (digitsValFrom a (natDigits (n / 10))) [digChar (n % 10)] := by
        simp [digitsValFrom]
      rw [hsplit, ih (n / 10) hd a]
      have hc : (digChar (n % 10)).toNat = 48 + n % 10 :=
        digChar_toNat _ (Nat.mod_lt _ (by omega))
      have hdm := Nat.div_add_mod n 10
      simp only [digitsValFrom, List.foldl_cons, List.foldl_nil, hc,
        List.length_append, List.length_cons, List.length_nil, Nat.zero_add,
        pow_succ]
      have hsub : 48 + n % 10 - 48 = n % 10 := by omega
      rw [hsub]
      calc (a * 10 ^ (natDigits (n / 10)).length + n / 10) * 10 + n % 10
          = a * (10 ^ (natDigits (n / 10)).length * 10)
              + (10 * (n / 10) + n % 10) := by ring
        _ = a * (10 ^ (natDigits (n / 10)).length * 10) + n := by rw [hdm]

theorem parseNat_natDigits (n : Nat) : parseNat (natDigits n) = some n := by
  rw [parseNat, if_pos ⟨natDigits_ne_nil n, natDigits_all_digits n⟩,
    digitsValFrom_natDigits n 0]
  simp

theorem itoa_natCast (m : Nat) : itoa (m : Int) = ⟨natDigits m⟩ := by
  rw [itoa, if_neg (by omega)]
  simp

theorem natDigits_head_digit (m : Nat) :
    ∃ c l, natDigits m = c :: l ∧ isDigitCh c = true := by
  obtain ⟨c, l, hcl⟩ : ∃ c l, natDigits m = c :: l := by
    cases hnd : natDigits m with
    | nil => exact absurd hnd (natDigits_ne_nil m)
    | cons c l => exact ⟨c, l, rfl⟩
  refine ⟨c, l, hcl, ?_⟩
  have hall := natDigits_all_digits m
  rw [hcl, List.all_cons, Bool.and_eq_true] at hall
  exact hall.1

theorem natDigits_injective (a b : Nat) (h : natDigits a = natDigits b) :
    a = b := by
  have ha := parseNat_natDigits a
  rw [h, parseNat_natDigits b] at ha
  exact (Option.some.inj ha).symm

theorem atoi_itoa (v : Int) (h1 : -9223372036854775808 ≤ v)
    (h2 : v < 9223372036854775808) : atoi (itoa v) = v := by
  by_cases hv : v < 0
  · rw [itoa, if_pos hv, atoi]
    dsimp only
    rw [if_pos (by simp)]
    rw [List.tail_cons, parseNat_natDigits]
    dsimp only
    rw [if_neg (by omega)]
    omega
  · rw [itoa, if_neg hv]
    obtain ⟨c, l, hcl, hdig⟩ := natDigits_head_digit v.toNat
    have hc1 : c ≠ '-' := by
      intro h
      rw [h] at hdig
      exact absurd hdig (by decide)
    have hc2 : c ≠ '+' := by
      intro h
      rw [h] at hdig
      exact absurd hdig (by decide)
    rw [atoi]
    dsimp only
    rw [hcl]
    rw [if_neg (by simp [hc1]), if_neg (by simp [hc2]), ← hcl, parseNat_natDigits]
    dsimp only
    rw [if_neg (by omega)]
    omega

theorem itoa_injective (v w : Int) (h : itoa v = itoa w) : v = w := by
  rw [itoa, itoa] at h
  by_cases hv : v < 0 <;> by_cases hw : w < 0
  · rw [if_pos hv, if_pos hw] at h
    have hd : '-' :: natDigits (-v).toNat = '-' :: natDigits (-w).toNat :=
      congrArg String.data h
    injection hd with _ hd2
    have := natDigits_injective _ _ hd2
    omega
  · exfalso
    rw [if_pos hv, if_neg hw] at h
    have hd : '-' :: natDigits (-v).toNat = natDigits w.toNat :=
      congrArg String.data h
    obtain ⟨c, l, hcl, hdig⟩ := natDigits_head_digit w.toNat
    rw [hcl] at hd
    injection hd with hd1 _
    rw [← hd1] at hdig
    exact absurd hdig (by decide)
  · exfalso
    rw [if_neg hv, if_pos hw] at h
    have hd : natDigits v.toNat = '-' :: natDigits (-w).toNat :=
      congrArg String.data h
    obtain ⟨c, l, hcl, hdig⟩ := natDigits_head_digit v.toNat
    rw [hcl] at hd
    injection hd with hd1 _
    rw [hd1] at hdig
    exact absurd hdig (by decide)
  · rw [if_neg hv, if_neg hw] at h
    have hd : natDigits v.toNat = natDigits w.toNat := congrArg String.data h
    have := natDigits_injective _ _ hd
    omega

theorem wrap64_bounds (v : Int) :
    -9223372036854775808 ≤ wrap64 v ∧ wrap64 v < 9223372036854775808 := by
  rw [wrap64]
  omega

theorem wrap64_add_one (v : Int) : wrap64 (wrap64 v + 1) = wrap64 (v + 1) := by
  rw [wrap64, wrap64, wrap64]
  omega

/-! ### Behaviour of NextID -/

theorem Etcd.put_get_same (st : Etcd) (k v : String) : st.put k v k = some v := by
  simp [Etcd.put]

theorem itoa_zero : itoa (0 : Int) = "0" := by
  rw [itoa, if_neg (by omega), natDigits]
  decide

theorem itoa_one : itoa (1 : Int) = "1" := by
  rw [itoa, if_neg (by omega), natDigits]
  decide

theorem NextID_at_counter (st : Etcd) (k : Nat)
    (h : st idKey = some (itoa (wrap64 ((k + 1 : Nat) : Int)))) :
    NextID st
      = ([Event.etcdGet idKey,
          Event.etcdPut idKey (itoa (wrap64 ((k + 2 : Nat) : Int)))],
         st.put idKey (itoa (wrap64 ((k + 2 : Nat) : Int))),
         itoa (wrap64 ((k + 1 : Nat) : Int))) := by
  have hb := wrap64_bounds ((k + 1 : Nat) : Int)
  have ha : atoi (itoa (wrap64 ((k + 1 : Nat) : Int)))
      = wrap64 ((k + 1 : Nat) : Int) := atoi_itoa _ hb.1 hb.2
  have hcast : ((k + 1 : Nat) : Int) + 1 = ((k + 2 : Nat) : Int) := by
    push_cast
    ring
  have hc : wrap64 (wrap64 ((k + 1 : Nat) : Int) + 1)
      = wrap64 ((k + 2 : Nat) : Int) := by
    rw [wrap64_add_one, hcast]
  simp only [NextID, NextID_read, NextID_write, h, ha, hc]

theorem runNextID_from_counter (n : Nat) :
    ∀ k st, st idKey = some (itoa (wrap64 ((k + 1 : Nat) : Int))) →
      runNextID n st
        = (List.range' (k + 1) n).map (fun j : Nat => itoa (wrap64 (j : Int))) := by
  induction n with
  | zero =>
      intro k st h
      simp [runNextID]
  | succ n ih =>
      intro k st h
      have hst2 : (st.put idKey (itoa (wrap64 ((k + 2 : Nat) : Int)))) idKey
          = some (itoa (wrap64 ((k + 1 + 1 : Nat) : Int))) := by
        rw [Etcd.put_get_same]
      rw [runNextID, NextID_at_counter st k h]
      dsimp only
      rw [ih (k + 1) _ hst2, List.range'_succ]
      simp

theorem runNextID_emptyEtcd (n : Nat) :
    runNextID n emptyEtcd
      = (List.range n).map (fun j : Nat => itoa (wrap64 (j : Int))) := by
  cases n with
  | zero => simp [runNextID]
  | succ n =>
      have hfirst : NextID emptyEtcd
          = ([Event.etcdGet idKey, Event.etcdPut idKey "1"],
             emptyEtcd.put idKey "1", "0") := rfl
      have hw1 : wrap64 (1 : Int) = 1 := by decide
      have hst1 : (emptyEtcd.put idKey "1") idKey
          = some (itoa (wrap64 ((0 + 1 : Nat) : Int))) := by
        simp [Etcd.put_get_same, hw1, itoa_one]
      rw [runNextID, hfirst]
      dsimp only
      rw [runNextID_from_counter n 0 _ hst1]
      rw [List.range_eq_range', List.range'_succ]
      have hw0 : wrap64 (0 : Int) = 0 := by decide
      simp [hw0, itoa_zero]

/-- Store whose serial counter holds the value 4, as left by earlier
allocations. -/
def counterAt4 : Etcd := fun q => if q = idKey then some "4" else none

/-- C1, counterexample.  Two concurrent NextID calls from two orchestrator
processes sharing the etcd store, interleaved read/read/write/write: both
calls return the serial 4.  The counter Put at part_000:218 is an
unconditional clientv3 Put, not conditioned on the stored value being
unchanged since the read, and the mutex at part_000:202 is process-local,
so the returned serials are not pairwise distinct across instances. -/
theorem NextID_race_duplicate :
    (NextID_race counterAt4).2.1 = "4" ∧ (NextID_race counterAt4).2.2 = "4" := by
  constructor <;> rfl

/-- C1, amended.  Within a single orchestrator process the mutex m
serializes NextID calls, and any sequence of at most 2^64 serialized
NextID calls starting from the initial store (no counter key) returns
pairwise distinct serials; the counter is a 64-bit Go int that wraps, so
after 2^64 calls the serial sequence repeats.  Across processes the
unconditional counter write permits duplicates regardless of length (see
the counterexample). -/
theorem NextID_sequential_distinct (n : Nat) (h : n ≤ 2 ^ 64) :
    (runNextID n emptyEtcd).Nodup := by
  rw [runNextID_emptyEtcd]
  have hn : n ≤ 18446744073709551616 := by
    calc n ≤ 2 ^ 64 := h
      _ = 18446744073709551616 := by norm_num
  refine List.Nodup.map_on ?_ (List.nodup_range n)
  intro x hx y hy hxy
  rw [List.mem_range] at hx hy
  have hw : wrap64 (x : Int) = wrap64 (y : Int) := itoa_injective _ _ hxy
  rw [wrap64, wrap64] at hw
  omega

/-- Witness for NextID_sequential_distinct: the serials of the first four
calls are pairwise distinct. -/
theorem NextID_sequential_distinct_witness : (runNextID 4 emptyEtcd).Nodup :=
  NextID_sequential_distinct 4 (by norm_num)

/-- C4, counterexample.  On the first NextID call ever (no counter key in
the store) the value written to the counter key is the string 1
(part_000:214) while the returned serial is the string 0 (part_000:221):
the returned serial differs from the value written. -/
theorem NextID_first_call_mismatch :
    (NextID emptyEtcd).2.1 idKey = some "1" ∧ (NextID emptyEtcd).2.2 = "0" ∧
      (NextID emptyEtcd).2.1 idKey ≠ some ((NextID emptyEtcd).2.2) := by
  refine ⟨rfl, rfl, by decide⟩

/-- C4, amended.  The first NextID call (counter key absent) initializes
the counter key to the string 1 but returns the string 0, the predecessor
of the written value, after performing exactly one Get and one Put. -/
theorem NextID_first_call_spec (st : Etcd) (h : st idKey = none) :
    (NextID st).2.2 = "0" ∧ (NextID st).2.1 idKey = some "1" ∧
      (NextID st).1 = [Event.etcdGet idKey, Event.etcdPut idKey "1"] := by
  simp [NextID, NextID_read, NextID_write, h, Etcd.put_get_same]

/-- Witness for NextID_first_call_spec at the empty store. -/
theorem NextID_first_call_spec_witness :
    (NextID emptyEtcd).2.2 = "0" ∧ (NextID emptyEtcd).2.1 idKey = some "1" ∧
      (NextID emptyEtcd).1 = [Event.etcdGet idKey, Event.etcdPut idKey "1"] :=
  NextID_first_call_spec emptyEtcd rfl

/-! ### The publish, unpublish and dev-path handlers (part_000:109-189) -/

/-- Root directory of the qcow2 backing images (part_000:42). -/
def diskRoot : String := "/fs/trust/vm/csi/"

/-- Monitor command attaching the backend store (part_000:113):
drive_add with the qcow2 path and the volume name as drive id. -/
def driveAddCmd (name : String) : String :=
  "drive_add 0 if=none,format=qcow2,file=" ++ (diskRoot ++ name ++ ".qcow2")
    ++ ",id=" ++ name

/-- Monitor command attaching the guest device (part_000:138): device_add
of a virtio-blk-pci device on the named drive, carrying the serial. -/
def deviceAddCmd (name serial : String) : String :=
  "device_add virtio-blk-pci,drive=" ++ name ++ ",id=" ++ name
    ++ ",serial=" ++ serial

/-- Publish handler (part_000:109-151), POST /disk/name/publish/node.
Sends drive_add; on failure responds 500 and stops.  Then Gets the
binding; when absent, calls NextID, Puts the binding, and re-Gets it.
Then sends device_add with the bound serial; on failure sends the
compensating drive_del, panicking via log.Panicln when that also fails
(part_000:142), and otherwise builds the 500 response from the err
variable, which the drive_del assignment at part_000:140 has just
overwritten with nil, so Error() dereferences a nil error and panics.
Returns the event list, the resulting store and the outcome. -/
def publish (env : Env) (st : Etcd) (name node : String) :
    List Event × Etcd × Outcome :=
  match env node (driveAddCmd name) with
  | some m =>
      ([Event.exec node (driveAddCmd name), Event.logln ("publish err: " ++ m)],
       st, Outcome.errResp 500 m)
  | none =>
      let (evs, st2, got) :=
        match st (bindingKey name) with
        | some v => ([Event.etcdGet (bindingKey name)], st, some v)
        | none =>
            let (evN, stN, id) := NextID st
            let stP := stN.put (bindingKey name) id
            (Event.etcdGet (bindingKey name) :: evN
               ++ [Event.etcdPut (bindingKey name) id,
                   Event.etcdGet (bindingKey name)],
             stP, stP (bindingKey name))
      match got with
      | none =>
          (Event.exec node (driveAddCmd name) :: evs, st2,
           Outcome.panicked "index out of range")
      | some serial =>
          match env node (deviceAddCmd name serial) with
          | none =>
              (Event.exec node (driveAddCmd name) :: evs
                 ++ [Event.exec node (deviceAddCmd name serial)],
               st2, Outcome.ok)
          | some _ =>
              match env node ("drive_del " ++ name) with
              | some m3 =>
                  (Event.exec node (driveAddCmd name) :: evs
                     ++ [Event.exec node (deviceAddCmd name serial),
                         Event.exec node ("drive_del " ++ name)],
                   st2, Outcome.panicked ("error: " ++ m3))
              | none =>
                  (Event.exec node (driveAddCmd name) :: evs
                     ++ [Event.exec node (deviceAddCmd name serial),
                         Event.exec node ("drive_del " ++ name)],
                   st2, Outcome.panicked nilDerefMsg)

/-- Unpublish handler (part_000:153-168), DELETE /disk/name/publish/node.
Sends device_del; only when it fails does it send drive_del, and only
when that also fails does it respond 500 with the drive_del error. -/
def unpublish (env : Env) (name node : String) : List Event × Outcome :=
  match env node ("device_del " ++ name) with
  | none => ([Event.exec node ("device_del " ++ name)], Outcome.ok)
  | some _ =>
      match env node ("drive_del " ++ name) with
      | none =>
          ([Event.exec node ("device_del " ++ name),
            Event.exec node ("drive_del " ++ name)], Outcome.ok)
      | some m2 =>
          ([Event.exec node ("device_del " ++ name),
            Event.exec node ("drive_del " ++ name),
            Event.logln ("unpushlish err: " ++ m2)],
           Outcome.errResp 500 m2)

/-- Device path resolution (part_000:187-188): the fixed guest device
naming prefix followed by the serial text. -/
def ResolvePath (serial : String) : String := "/dev/disk/by-id/virtio-" ++ serial

/-- Dev-path handler (part_000:170-189), GET /dev-path/name: Gets the
binding; when absent responds 500 with a not-found message and logs that
message (part_000:180-184); when present writes the resolved path. -/
def devPath (st : Etcd) (name : String) : List Event × Outcome :=
  match st (bindingKey name) with
  | none =>
      ([Event.etcdGet (bindingKey name),
        Event.logln ("volume " ++ name ++ " not found! not published yet?")],
       Outcome.errResp 500 ("volume " ++ name ++ " not found! not published yet?"))
  | some v =>
      ([Event.etcdGet (bindingKey name)], Outcome.content (ResolvePath v))

/-- Serial used by the publish handler for the device_add command: the
bound serial when the binding exists, otherwise the serial returned by
NextID (which is then re-read from the store after the Put). -/
def publishSerial (st : Etcd) (name : String) : String :=
  match st (bindingKey name) with
  | some v => v
  | none => (NextID st).2.2

/-! ### Concrete environments and stores used as test inputs -/

/-- Environment in which every monitor command succeeds. -/
def envAllOk : Env := fun _ _ => none

/-- Environment in which every monitor command fails, with the command
text as the error message. -/
def envAllFail : Env := fun _ cmd => some cmd

/-- Store binding the volume vol-a to serial 7. -/
def bindingVolA7 : Etcd := fun q => if q = bindingKey "vol-a" then some "7" else none

/-- Environment in which device_add of vol-a is rejected and the
compensating drive_del also fails. -/
def envDirty : Env := fun _ cmd =>
  if cmd = deviceAddCmd "vol-a" "7" then some "rejected"
  else if cmd = "drive_del " ++ "vol-a" then some "busy"
  else none

/-- Environment in which device_add of vol-a is rejected but every other
command, in particular the compensating drive_del, succeeds. -/
def envClean : Env := fun _ cmd =>
  if cmd = deviceAddCmd "vol-a" "7" then some "rejected" else none

/-! ### C2: unpublish -/

/-- C2, counterexample.  When the device_del command succeeds, unpublish
returns with only that one command sent: the backend-store detach
drive_del is not sent, contradicting the claim that the backend detach is
sent whether or not the device detach succeeded (part_000:156-158 guards
the drive_del on the device_del error being non-nil). -/
theorem unpublish_backend_detach_skipped :
    unpublish envAllOk "vol-a" "host-1"
        = ([Event.exec "host-1" ("device_del " ++ "vol-a")], Outcome.ok)
      ∧ Event.exec "host-1" ("drive_del " ++ "vol-a")
          ∉ (unpublish envAllOk "vol-a" "host-1").1 := by
  constructor
  · rfl
  · decide

/-- C2, amended.  The drive_del backend detach is sent only when the
device_del guest detach fails; when device_del succeeds the handler
returns success immediately.  When device_del fails and drive_del
succeeds the call is a success, and only when both fail does it surface
the 500 unpublish-failed response, built from the drive_del error. -/
theorem unpublish_spec (env : Env) (name node : String) :
    (env node ("device_del " ++ name) = none →
      unpublish env name node
        = ([Event.exec node ("device_del " ++ name)], Outcome.ok)) ∧
    (∀ m1, env node ("device_del " ++ name) = some m1 →
      env node ("drive_del " ++ name) = none →
      unpublish env name node
        = ([Event.exec node ("device_del " ++ name),
            Event.exec node ("drive_del " ++ name)], Outcome.ok)) ∧
    (∀ m1 m2, env node ("device_del " ++ name) = some m1 →
      env node ("drive_del " ++ name) = some m2 →
      unpublish env name node
        = ([Event.exec node ("device_del " ++ name),
            Event.exec node ("drive_del " ++ name),
            Event.logln ("unpushlish err: " ++ m2)],
           Outcome.errResp 500 m2)) := by
  refine ⟨?_, ?_, ?_⟩
  · intro h1
    simp [unpublish, h1]
  · intro m1 h1 h2
    simp [unpublish, h1, h2]
  · intro m1 m2 h1 h2
    simp [unpublish, h1, h2]

/-- Witness for unpublish_spec: both detaches fail, so the handler
responds 500 with the drive_del error message. -/
theorem unpublish_spec_witness :
    unpublish envAllFail "vol-a" "host-1"
      = ([Event.exec "host-1" ("device_del " ++ "vol-a"),
          Event.exec "host-1" ("drive_del " ++ "vol-a"),
          Event.logln ("unpushlish err: " ++ ("drive_del " ++ "vol-a"))],
         Outcome.errResp 500 ("drive_del " ++ "vol-a")) :=
  (unpublish_spec envAllFail "vol-a" "host-1").2.2
    ("device_del " ++ "vol-a") ("drive_del " ++ "vol-a") rfl rfl

/-! ### C3: failure handling of the publish compensation -/

/-- C3, counterexample.  With vol-a bound to serial 7: when device_add is
rejected and the compensating drive_del also fails, the publish handler
panics via log.Panicln (part_000:142) instead of responding with a
structured error; and when the compensating drive_del succeeds, the
handler panics dereferencing the err variable that the drive_del call
just overwrote with nil (part_000:140,146), so no plain publish-failed
response is returned either.  In neither case is a structured error
surfaced to the caller. -/
theorem publish_compensation_panics :
    (publish envDirty bindingVolA7 "vol-a" "host-1").2.2
        = Outcome.panicked ("error: " ++ "busy")
      ∧ (publish envClean bindingVolA7 "vol-a" "host-1").2.2
          = Outcome.panicked nilDerefMsg := by
  constructor
  · rfl
  · rfl

/-- C3, amended.  When the device attach fails after a successful backend
attach: if the compensating drive_del also fails the handler panics with
the log.Panicln message, and if the compensating drive_del succeeds the
handler panics on the nil-error dereference while building the 500
response; a structured publish-failed response is returned in neither
case. -/
theorem publish_compensation_spec (env : Env) (st : Etcd)
    (name node serial : String)
    (hb : st (bindingKey name) = some serial)
    (h1 : env node (driveAddCmd name) = none)
    (m2 : String) (h2 : env node (deviceAddCmd name serial) = some m2) :
    (∀ m3, env node ("drive_del " ++ name) = some m3 →
      (publish env st name node).2.2 = Outcome.panicked ("error: " ++ m3)) ∧
    (env node ("drive_del " ++ name) = none →
      (publish env st name node).2.2 = Outcome.panicked nilDerefMsg) := by
  constructor
  · intro m3 h3
    simp [publish, hb, h1, h2, h3]
  · intro h3
    simp [publish, hb, h1, h2, h3]

/-- Witness for publish_compensation_spec in the double-failure case. -/
theorem publish_compensation_spec_witness :
    (publish envDirty bindingVolA7 "vol-a" "host-1").2.2
      = Outcome.panicked ("error: " ++ "busy") :=
  (publish_compensation_spec envDirty bindingVolA7 "vol-a" "host-1" "7"
    rfl rfl "rejected" rfl).1 "busy" rfl

/-! ### C8: dev-path lookup of an unbound volume -/

/-- C8, counterexample.  A dev-path lookup for a volume with no binding
responds with HTTP status 500 (an internal-error status, not a NotFound
one) and logs the not-found message (part_000:180-184), contradicting the
claim that the outcome is a NotFound treated as routine and not logged. -/
theorem devPath_unbound_logged_500 :
    (devPath emptyEtcd "vol-a").2
        = Outcome.errResp 500 ("volume " ++ "vol-a" ++ " not found! not published yet?")
      ∧ Event.logln ("volume " ++ "vol-a" ++ " not found! not published yet?")
          ∈ (devPath emptyEtcd "vol-a").1 := by
  constructor
  · rfl
  · decide

/-- C8, amended.  A dev-path lookup for a volume name with no binding
responds 500 with the message that the volume was not found and not yet
published, and logs that same message. -/
theorem devPath_unbound_spec (st : Etcd) (name : String)
    (h : st (bindingKey name) = none) :
    devPath st name
      = ([Event.etcdGet (bindingKey name),
          Event.logln ("volume " ++ name ++ " not found! not published yet?")],
         Outcome.errResp 500 ("volume " ++ name ++ " not found! not published yet?")) := by
  simp [devPath, h]

/-- Witness for devPath_unbound_spec at the empty store. -/
theorem devPath_unbound_spec_witness :
    devPath emptyEtcd "vol-a"
      = ([Event.etcdGet (bindingKey "vol-a"),
          Event.logln ("volume " ++ "vol-a" ++ " not found! not published yet?")],
         Outcome.errResp 500 ("volume " ++ "vol-a" ++ " not found! not published yet?")) :=
  devPath_unbound_spec emptyEtcd "vol-a" rfl

/-! ### C9: the device path resolver -/

/-- C9.  ResolvePath is the pure total function concatenating the fixed
guest device naming prefix with the serial text (part_000:187-188), and
it is injective: distinct serials never resolve to the same path. -/
theorem resolvePath_spec :
    (∀ s, ResolvePath s = "/dev/disk/by-id/virtio-" ++ s) ∧
    (∀ s t, ResolvePath s = ResolvePath t → s = t) := by
  refine ⟨fun s => rfl, fun s t h => ?_⟩
  simp only [ResolvePath] at h
  have hd := congrArg String.data h
  rw [String.data_append, String.data_append] at hd
  exact String.ext (List.append_cancel_left hd)

/-- Witness for resolvePath_spec: evaluation at serial 7 and the
injectivity implication discharged at serial 1. -/
theorem resolvePath_spec_witness :
    ResolvePath "7" = "/dev/disk/by-id/virtio-" ++ "7" ∧ ("1" : String) = "1" :=
  ⟨resolvePath_spec.1 "7", resolvePath_spec.2 "1" "1" rfl⟩

/-! ### C5: order of the publish steps -/

/-- C5, counterexample.  With no prior binding and all commands
succeeding, the first event of the publish handler is the drive_add
monitor command and the binding lookup comes only second (part_000:113
versus part_000:125): a command reaches the hypervisor control channel
before the binding is resolved, contradicting the claimed
binding-first order. -/
theorem publish_command_precedes_binding :
    (publish envAllOk emptyEtcd "vol-a" "host-1").1.take 2
      = [Event.exec "host-1" (driveAddCmd "vol-a"),
         Event.etcdGet (bindingKey "vol-a")] := by
  rfl

/-- C5, amended.  Publish first sends the drive_add backend attach, then
resolves the binding (Get; and when absent: NextID, Put, re-Get), then
sends the device_add guest attach: binding resolution happens after the
backend-attach command but before the device-attach command. -/
theorem publish_order_spec (env : Env) (st : Etcd) (name node : String)
    (h1 : env node (driveAddCmd name) = none) :
    (∀ v, st (bindingKey name) = some v →
      env node (deviceAddCmd name v) = none →
      (publish env st name node).1
        = [Event.exec node (driveAddCmd name),
           Event.etcdGet (bindingKey name),
           Event.exec node (deviceAddCmd name v)]) ∧
    (st (bindingKey name) = none →
      env node (deviceAddCmd name ((NextID st).2.2)) = none →
      (publish env st name node).1
        = Event.exec node (driveAddCmd name)
            :: Event.etcdGet (bindingKey name)
            :: (NextID st).1
          ++ [Event.etcdPut (bindingKey name) ((NextID st).2.2),
              Event.etcdGet (bindingKey name),
              Event.exec node (deviceAddCmd name ((NextID st).2.2))]) := by
  constructor
  · intro v hb h2
    simp [publish, h1, hb, h2]
  · intro hb h2
    rcases hN : NextID st with ⟨evN, stN, idv⟩
    rw [hN] at h2
    simp only at h2
    simp [publish, h1, hb, hN, h2, Etcd.put_get_same]

/-- Witness for publish_order_spec: publish of an unbound volume in the
all-success environment. -/
theorem publish_order_spec_witness :
    (publish envAllOk emptyEtcd "vol-a" "host-1").1
      = Event.exec "host-1" (driveAddCmd "vol-a")
          :: Event.etcdGet (bindingKey "vol-a")
          :: (NextID emptyEtcd).1
        ++ [Event.etcdPut (bindingKey "vol-a") ((NextID emptyEtcd).2.2),
            Event.etcdGet (bindingKey "vol-a"),
            Event.exec "host-1" (deviceAddCmd "vol-a" ((NextID emptyEtcd).2.2))] :=
  (publish_order_spec envAllOk emptyEtcd "vol-a" "host-1" rfl).2 rfl rfl

/-! ### C6: publish with an existing binding allocates nothing -/

/-- C6.  A publish of a volume that already has a binding performs no
etcd Put at all (so no new serial is persisted and no second binding is
written), performs no etcd Get other than the binding lookup (so NextID,
whose first step is a Get of the counter key, is never invoked), leaves
the store unchanged, and, when the backend attach succeeds, reuses the
existing serial in the device_add command. -/
theorem publish_existing_binding_spec (env : Env) (st : Etcd)
    (name node v : String) (hb : st (bindingKey name) = some v) :
    (∀ k val, Event.etcdPut k val ∉ (publish env st name node).1) ∧
    (∀ k, Event.etcdGet k ∈ (publish env st name node).1 → k = bindingKey name) ∧
    (publish env st name node).2.1 = st ∧
    (env node (driveAddCmd name) = none →
      Event.exec node (deviceAddCmd name v) ∈ (publish env st name node).1) := by
  rcases h1 : env node (driveAddCmd name) with _ | m1
  · rcases h2 : env node (deviceAddCmd name v) with _ | m2
    · refine ⟨?_, ?_, ?_, ?_⟩ <;> simp [publish, hb, h1, h2]
    · rcases h3 : env node ("drive_del " ++ name) with _ | m3 <;>
        · refine ⟨?_, ?_, ?_, ?_⟩ <;> simp [publish, hb, h1, h2, h3]
  · refine ⟨?_, ?_, ?_, ?_⟩ <;> simp [publish, hb, h1]

/-- Witness for publish_existing_binding_spec: vol-a bound to serial 7,
all commands succeeding — the store is unchanged and the device_add
command carries serial 7. -/
theorem publish_existing_binding_spec_witness :
    (publish envAllOk bindingVolA7 "vol-a" "host-1").2.1 = bindingVolA7
      ∧ Event.exec "host-1" (deviceAddCmd "vol-a" "7")
          ∈ (publish envAllOk bindingVolA7 "vol-a" "host-1").1 :=
  ⟨(publish_existing_binding_spec envAllOk bindingVolA7 "vol-a" "host-1" "7" rfl).2.2.1,
   (publish_existing_binding_spec envAllOk bindingVolA7 "vol-a" "host-1" "7" rfl).2.2.2 rfl⟩

/-! ### C7: the compensating detach precedes the failure return -/

/-- C7.  Whenever the device_add guest attach fails after a successful
drive_add backend attach, the publish handler sends the compensating
drive_del for the same backend identifier (the volume name used as drive
id in drive_add) immediately after the failed device_add, and no further
event follows it: the compensating detach is sent before the handler
delivers its outcome to the caller. -/
theorem publish_detach_before_return (env : Env) (st : Etcd)
    (name node : String)
    (h1 : env node (driveAddCmd name) = none) (m2 : String)
    (h2 : env node (deviceAddCmd name (publishSerial st name)) = some m2) :
    ∃ pre, (publish env st name node).1
      = pre ++ [Event.exec node (deviceAddCmd name (publishSerial st name)),
                Event.exec node ("drive_del " ++ name)] := by
  rcases hb : st (bindingKey name) with _ | v
  · rcases hN : NextID st with ⟨evN, stN, idv⟩
    have hps : publishSerial st name = idv := by
      simp [publishSerial, hb, hN]
    rw [hps] at h2
    refine ⟨Event.exec node (driveAddCmd name)
        :: Event.etcdGet (bindingKey name) :: evN
        ++ [Event.etcdPut (bindingKey name) idv,
            Event.etcdGet (bindingKey name)], ?_⟩
    rw [hps]
    rcases h3 : env node ("drive_del " ++ name) with _ | m3 <;>
      simp [publish, h1, hb, hN, h2, h3, Etcd.put_get_same]
  · have hps : publishSerial st name = v := by
      simp [publishSerial, hb]
    rw [hps] at h2
    refine ⟨[Event.exec node (driveAddCmd name),
             Event.etcdGet (bindingKey name)], ?_⟩
    rw [hps]
    rcases h3 : env node ("drive_del " ++ name) with _ | m3 <;>
      simp [publish, h1, hb, h2, h3]

/-- Witness for publish_detach_before_return: vol-a bound to serial 7,
device_add rejected, compensating drive_del failing. -/
theorem publish_detach_before_return_witness :
    ∃ pre, (publish envDirty bindingVolA7 "vol-a" "host-1").1
      = pre ++ [Event.exec "host-1"
                  (deviceAddCmd "vol-a" (publishSerial bindingVolA7 "vol-a")),
                Event.exec "host-1" ("drive_del " ++ "vol-a")] :=
  publish_detach_before_return envDirty bindingVolA7 "vol-a" "host-1" rfl "rejected" rfl

/-! ### The endpoint parser Parse (server.go:165-175) -/

/-- Per-character mapping of strings.ToLower (the Unicode simple case
mapping applied rune by rune), restricted to the mappings whose image is
an ASCII character: uppercase ASCII letters (codes 65 to 90) map to
their code plus 32, the dotted capital I (U+0130, code 304) maps to the
ASCII i, and the Kelvin sign (U+212A, code 8490) maps to the ASCII k.
These are the only Unicode simple case mappings landing on an ASCII
character, so every remaining character either maps to itself here and
to another non-ASCII character in Go — and neither equals any character
of the prefixes unix:// and tcp:// — or is ASCII and mapped identically;
the prefix classification in Parse therefore agrees with Go on every
string. -/
def goCharToLower (c : Char) : Char :=
  if 65 ≤ c.toNat ∧ c.toNat ≤ 90 then Char.ofNat (c.toNat + 32)
  else if c.toNat = 304 then 'i'
  else if c.toNat = 8490 then 'k'
  else c

/-- Embedding of strings.ToLower. -/
def goToLower (s : String) : String := ⟨s.data.map goCharToLower⟩

/-- Embedding of strings.HasPrefix: the first characters of s are
exactly pre. -/
def goStartsWith (s pre : String) : Bool :=
  decide (s.data.take pre.data.length = pre.data)

/-- Split at the first occurrence of the separator ://, as
strings.SplitN with count 2 does: the part before the first separator
and the remainder after it, or none when no separator occurs. -/
def splitSep : List Char → Option (List Char × List Char)
  | [] => none
  | c :: cs =>
      if (c :: cs).take 3 = [':', '/', '/'] then some ([], cs.drop 2)
      else
        match splitSep cs with
        | some p => some (c :: p.1, p.2)
        | none => none

/-- Parse (server.go:165-175): when the lowercased endpoint starts with
unix:// or tcp://, split the original string on the first :// and accept
when the remainder is non-empty, reporting an invalid endpoint when it
is empty; every other string is assumed to be a unix domain socket path
and accepted unchanged.  The none branch of the split never runs under
the prefix guard (Go indexes the second part unconditionally there). -/
def Parse (ep : String) : Except String (String × String) :=
  if goStartsWith (goToLower ep) "unix://" || goStartsWith (goToLower ep) "tcp://" then
    match splitSep ep.data with
    | some p =>
        if p.2 ≠ [] then Except.ok (⟨p.1⟩, ⟨p.2⟩)
        else Except.error ("Invalid endpoint: " ++ ep)
    | none => Except.error ("Invalid endpoint: " ++ ep)
  else
    Except.ok ("unix", ep)

theorem goCharToLower_upper_range (c : Char)
    (h : 65 ≤ c.toNat ∧ c.toNat ≤ 90) :
    97 ≤ (goCharToLower c).toNat ∧ (goCharToLower c).toNat ≤ 122 := by
  rw [goCharToLower, if_pos h]
  obtain ⟨h1, h2⟩ := h
  generalize c.toNat = n at h1 h2 ⊢
  interval_cases n <;> decide

theorem goCharToLower_eq_symbol (c t : Char) (h : goCharToLower c = t)
    (ht : t.toNat < 65) : c = t := by
  by_cases hr : 65 ≤ c.toNat ∧ c.toNat ≤ 90
  · exfalso
    have hu := goCharToLower_upper_range c hr
    rw [h] at hu
    omega
  · by_cases h304 : c.toNat = 304
    · exfalso
      rw [goCharToLower, if_neg hr, if_pos h304] at h
      rw [← h] at ht
      exact absurd ht (by decide)
    · by_cases h8490 : c.toNat = 8490
      · exfalso
        rw [goCharToLower, if_neg hr, if_neg h304, if_pos h8490] at h
        rw [← h] at ht
        exact absurd ht (by decide)
      · rw [goCharToLower, if_neg hr, if_neg h304, if_neg h8490] at h
        exact h

theorem ne_colon_of_lower (c t : Char) (h : goCharToLower c = t)
    (ht : t ≠ ':') : c ≠ ':' := by
  intro hc
  rw [hc] at h
  have hcc : goCharToLower ':' = ':' := by decide
  rw [hcc] at h
  exact ht h.symm

theorem map_eq_cons (f : Char → Char) (l : List Char) (t : Char)
    (ts : List Char) (h : l.map f = t :: ts) :
    ∃ c cs, l = c :: cs ∧ f c = t ∧ cs.map f = ts := by
  cases l with
  | nil => simp at h
  | cons c cs =>
      rw [List.map_cons, List.cons.injEq] at h
      exact ⟨c, cs, rfl, h.1, h.2⟩

theorem take7_decomp (l : List Char) (t0 t1 t2 t3 t4 t5 t6 : Char)
    (h : l.take 7 = [t0, t1, t2, t3, t4, t5, t6]) :
    l = t0 :: t1 :: t2 :: t3 :: t4 :: t5 :: t6 :: l.drop 7 := by
  conv_lhs => rw [← List.take_append_drop 7 l]
  rw [h]
  simp

theorem take6_decomp (l : List Char) (t0 t1 t2 t3 t4 t5 : Char)
    (h : l.take 6 = [t0, t1, t2, t3, t4, t5]) :
    l = t0 :: t1 :: t2 :: t3 :: t4 :: t5 :: l.drop 6 := by
  conv_lhs => rw [← List.take_append_drop 6 l]
  rw [h]
  simp

theorem splitSep_cons_ne (c : Char) (cs : List Char) (h : c ≠ ':') :
    splitSep (c :: cs)
      = match splitSep cs with
        | some p => some (c :: p.1, p.2)
        | none => none := by
  have hcond : ¬((c :: cs).take 3 = [':', '/', '/']) := by
    rw [List.take_succ_cons]
    intro hc
    injection hc with h1 _
    exact h h1
  rw [splitSep, if_neg hcond]

theorem splitSep_at_sep (cs : List Char) :
    splitSep (':' :: '/' :: '/' :: cs) = some ([], cs) := by
  have hcond : List.take 3 (':' :: '/' :: '/' :: cs) = [':', '/', '/'] := rfl
  rw [splitSep, if_pos hcond]
  rfl

theorem splitSep_four (c0 c1 c2 c3 : Char) (rest : List Char)
    (h0 : c0 ≠ ':') (h1 : c1 ≠ ':') (h2 : c2 ≠ ':') (h3 : c3 ≠ ':') :
    splitSep (c0 :: c1 :: c2 :: c3 :: ':' :: '/' :: '/' :: rest)
      = some ([c0, c1, c2, c3], rest) := by
  rw [splitSep_cons_ne c0 _ h0, splitSep_cons_ne c1 _ h1,
    splitSep_cons_ne c2 _ h2, splitSep_cons_ne c3 _ h3, splitSep_at_sep]

theorem splitSep_three (c0 c1 c2 : Char) (rest : List Char)
    (h0 : c0 ≠ ':') (h1 : c1 ≠ ':') (h2 : c2 ≠ ':') :
    splitSep (c0 :: c1 :: c2 :: ':' :: '/' :: '/' :: rest)
      = some ([c0, c1, c2], rest) := by
  rw [splitSep_cons_ne c0 _ h0, splitSep_cons_ne c1 _ h1,
    splitSep_cons_ne c2 _ h2, splitSep_at_sep]

/-- C10.  Parse accepts any endpoint whose lowercased form starts with
unix:// or tcp:// and whose remainder after the first :// is non-empty,
returning the original-case scheme part and that remainder with no
error; it returns an error when the remainder is empty; and every other
string, the empty string included, is returned unchanged as a
unix-scheme address with no error — Parse never fails on input lacking
those prefixes. -/
theorem parse_spec (ep : String) :
    (goStartsWith (goToLower ep) "unix://" = true →
      (ep.data.drop 7 ≠ [] →
        Parse ep = Except.ok (⟨ep.data.take 4⟩, ⟨ep.data.drop 7⟩)) ∧
      (ep.data.drop 7 = [] →
        Parse ep = Except.error ("Invalid endpoint: " ++ ep))) ∧
    (goStartsWith (goToLower ep) "tcp://" = true →
      (ep.data.drop 6 ≠ [] →
        Parse ep = Except.ok (⟨ep.data.take 3⟩, ⟨ep.data.drop 6⟩)) ∧
      (ep.data.drop 6 = [] →
        Parse ep = Except.error ("Invalid endpoint: " ++ ep))) ∧
    (goStartsWith (goToLower ep) "unix://" = false →
      goStartsWith (goToLower ep) "tcp://" = false →
      Parse ep = Except.ok ("unix", ep)) := by
  refine ⟨?_, ?_, ?_⟩
  · intro hu
    have hx : (ep.data.map goCharToLower).take 7
        = ['u', 'n', 'i', 'x', ':', '/', '/'] := by
      have hx0 := hu
      rw [goStartsWith, decide_eq_true_eq] at hx0
      exact hx0
    rw [← List.map_take] at hx
    obtain ⟨c0, l0, hl0, f0, hx⟩ := map_eq_cons _ _ _ _ hx
    obtain ⟨c1, l1, hl1, f1, hx⟩ := map_eq_cons _ _ _ _ hx
    obtain ⟨c2, l2, hl2, f2, hx⟩ := map_eq_cons _ _ _ _ hx
    obtain ⟨c3, l3, hl3, f3, hx⟩ := map_eq_cons _ _ _ _ hx
    obtain ⟨c4, l4, hl4, f4, hx⟩ := map_eq_cons _ _ _ _ hx
    obtain ⟨c5, l5, hl5, f5, hx⟩ := map_eq_cons _ _ _ _ hx
    obtain ⟨c6, l6, hl6, f6, hx⟩ := map_eq_cons _ _ _ _ hx
    rw [List.map_eq_nil_iff] at hx
    subst hx hl6 hl5 hl4 hl3 hl2 hl1
    have e4 : c4 = ':' := goCharToLower_eq_symbol c4 ':' f4 (by decide)
    have e5 : c5 = '/' := goCharToLower_eq_symbol c5 '/' f5 (by decide)
    have e6 : c6 = '/' := goCharToLower_eq_symbol c6 '/' f6 (by decide)
    subst e4 e5 e6
    have n0 : c0 ≠ ':' := ne_colon_of_lower c0 'u' f0 (by decide)
    have n1 : c1 ≠ ':' := ne_colon_of_lower c1 'n' f1 (by decide)
    have n2 : c2 ≠ ':' := ne_colon_of_lower c2 'i' f2 (by decide)
    have n3 : c3 ≠ ':' := ne_colon_of_lower c3 'x' f3 (by decide)
    have hdec : ep.data = c0 :: c1 :: c2 :: c3 :: ':' :: '/' :: '/' :: ep.data.drop 7 :=
      take7_decomp ep.data c0 c1 c2 c3 ':' '/' '/' hl0
    have hsplit : splitSep ep.data = some ([c0, c1, c2, c3], ep.data.drop 7) := by
      conv_lhs => rw [hdec]
      exact splitSep_four c0 c1 c2 c3 _ n0 n1 n2 n3
    have htake : ep.data.take 4 = [c0, c1, c2, c3] := by
      conv_lhs => rw [hdec]
      rfl
    have hguard : (goStartsWith (goToLower ep) "unix://"
        || goStartsWith (goToLower ep) "tcp://") = true := by
      rw [hu]
      simp
    constructor
    · intro hne
      rw [Parse, if_pos hguard]
      simp only [hsplit]
      rw [if_pos hne, htake]
    · intro he
      rw [Parse, if_pos hguard]
      simp only [hsplit]
      rw [if_neg (not_not_intro he)]
  · intro ht
    have hx : (ep.data.map goCharToLower).take 6
        = ['t', 'c', 'p', ':', '/', '/'] := by
      have hx0 := ht
      rw [goStartsWith, decide_eq_true_eq] at hx0
      exact hx0
    rw [← List.map_take] at hx
    obtain ⟨c0, l0, hl0, f0, hx⟩ := map_eq_cons _ _ _ _ hx
    obtain ⟨c1, l1, hl1, f1, hx⟩ := map_eq_cons _ _ _ _ hx
    obtain ⟨c2, l2, hl2, f2, hx⟩ := map_eq_cons _ _ _ _ hx
    obtain ⟨c3, l3, hl3, f3, hx⟩ := map_eq_cons _ _ _ _ hx
    obtain ⟨c4, l4, hl4, f4, hx⟩ := map_eq_cons _ _ _ _ hx
    obtain ⟨c5, l5, hl5, f5, hx⟩ := map_eq_cons _ _ _ _ hx
    rw [List.map_eq_nil_iff] at hx
    subst hx hl5 hl4 hl3 hl2 hl1
    have e3 : c3 = ':' := goCharToLower_eq_symbol c3 ':' f3 (by decide)
    have e4 : c4 = '/' := goCharToLower_eq_symbol c4 '/' f4 (by decide)
    have e5 : c5 = '/' := goCharToLower_eq_symbol c5 '/' f5 (by decide)
    subst e3 e4 e5
    have n0 : c0 ≠ ':' := ne_colon_of_lower c0 't' f0 (by decide)
    have n1 : c1 ≠ ':' := ne_colon_of_lower c1 'c' f1 (by decide)
    have n2 : c2 ≠ ':' := ne_colon_of_lower c2 'p' f2 (by decide)
    have hdec : ep.data = c0 :: c1 :: c2 :: ':' :: '/' :: '/' :: ep.data.drop 6 :=
      take6_decomp ep.data c0 c1 c2 ':' '/' '/' hl0
    have hsplit : splitSep ep.data = some ([c0, c1, c2], ep.data.drop 6) := by
      conv_lhs => rw [hdec]
      exact splitSep_three c0 c1 c2 _ n0 n1 n2
    have htake : ep.data.take 3 = [c0, c1, c2] := by
      conv_lhs => rw [hdec]
      rfl
    have hguard : (goStartsWith (goToLower ep) "unix://"
        || goStartsWith (goToLower ep) "tcp://") = true := by
      rw [ht]
      simp
    constructor
    · intro hne
      rw [Parse, if_pos hguard]
      simp only [hsplit]
      rw [if_pos hne, htake]
    · intro he
      rw [Parse, if_pos hguard]
      simp only [hsplit]
      rw [if_neg (not_not_intro he)]
  · intro hu ht
    have hguard : ¬((goStartsWith (goToLower ep) "unix://"
        || goStartsWith (goToLower ep) "tcp://") = true) := by
      rw [hu, ht]
      simp
    rw [Parse, if_neg hguard]

/-- Witness for parse_spec: a unix-scheme endpoint with a non-empty
socket path is accepted, returning the scheme and the path. -/
theorem parse_spec_witness :
    Parse "unix:///csi/csi.sock"
      = Except.ok (⟨("unix:///csi/csi.sock" : String).data.take 4⟩,
                   ⟨("unix:///csi/csi.sock" : String).data.drop 7⟩) :=
  ((parse_spec "unix:///csi/csi.sock").1 (by decide)).1 (by decide)

end UmeqCsi
